import Mathlib

/-!
Verification of the streetview-counterfactual workflow core.

Shallow embedding of:
* `src/workflow/nodes/planning.py` (`_sanitize_target_object`, `plan_edit_node`)
* `src/workflow/nodes/criticism.py` (`critique_generated_node`)
* `src/workflow/graph.py` (`critic_router`, the baseline Plan→Edit→Critique loop)
* `src/integrations/replicate_client.py` (`image_edit_baseline`, `_normalize_result`,
  `_write_output`, `_suffix_from_format`, `_mock_inpaint`, `_match_size`)
* `src/integrations/openai_client.py` (structured-response extraction of
  `propose_edit` / `critique_generated`)
* `src/utils/paths.py` (`timestamped_path`)

External collaborators (the OpenAI and Replicate backends, `urllib` downloads,
PIL resampling, timestamps) enter as explicit oracle parameters; everything the
repository's own code computes is embedded as executable Lean definitions.
Python strings are modelled as `List Char` where character-level reasoning is
needed, with `String` wrappers at the interface.
-/

namespace StreetCF

/-! ### Python string primitives used by `_sanitize_target_object` -/

/-- Characters treated as whitespace by Python's `str.strip()` / `str.split()`
  (ASCII whitespace; the inputs at hand are ASCII). -/
def pyIsSpace (c : Char) : Bool :=
  c = ' ' || c = '\t' || c = '\n' || c = '\r' || c = '\x0b' || c = '\x0c'

/-- Python `str.strip()` (no argument): drop leading and trailing whitespace. -/
def pyStrip (l : List Char) : List Char :=
  ((l.dropWhile pyIsSpace).reverse.dropWhile pyIsSpace).reverse

/-- Python `str.rstrip(chars)`: drop trailing characters belonging to `set`. -/
def rstripSet (set : List Char) (l : List Char) : List Char :=
  (l.reverse.dropWhile (fun c => set.contains c)).reverse

/-- Python `sep in text` (substring containment, `sep` nonempty in all uses). -/
def hasSub (sep : List Char) : List Char → Bool
  | [] => sep.isEmpty
  | c :: rest => sep.isPrefixOf (c :: rest) || hasSub sep rest

/-- Python `text.split(sep, 1)[0]`: the part of `text` before the first
  occurrence of `sep` (the whole of `text` when `sep` does not occur). -/
def takeBefore (sep : List Char) : List Char → List Char
  | [] => []
  | c :: rest => if sep.isPrefixOf (c :: rest) then [] else c :: takeBefore sep rest

/-- One step of the sanitizer's separator loops:
  `if sep in text: text = text.split(sep, 1)[0].strip()`. -/
def cutSep (sep text : List Char) : List Char :=
  if hasSub sep text then pyStrip (takeBefore sep text) else text

/-- Sequential application of `cutSep` over a tuple of separators. -/
def cutAll (seps : List (List Char)) (text : List Char) : List Char :=
  seps.foldl (fun t sep => cutSep sep t) text

/-- The double-quote character (Python `'"'`). -/
def dquote : Char := Char.ofNat 34

/-- The single-quote character (Python `"'"`). -/
def squote : Char := Char.ofNat 39

/-- Python `text.replace('"', "").replace("'", "")`. -/
def removeQuotes (l : List Char) : List Char :=
  l.filter (fun c => !(c = dquote || c = squote))

/-- Python `str.lower()` (ASCII case folding suffices for the article check). -/
def pyLower (l : List Char) : List Char := l.map Char.toLower

/-- Python `text.lower().startswith(("a ", "an ", "the "))`. -/
def startsWithArticle (l : List Char) : Bool :=
  ("a ".data).isPrefixOf (pyLower l) || ("an ".data).isPrefixOf (pyLower l) ||
    ("the ".data).isPrefixOf (pyLower l)

/-- Python `text.split(" ", 1)[1]`: everything after the first space
  (empty when no space occurs; in the sanitizer this branch only runs when a
  space is present). -/
def afterFirstSpace : List Char → List Char
  | [] => []
  | c :: rest => if c = ' ' then rest else afterFirstSpace rest

/-- Python `str.split()` helper: accumulates the current word (reversed). -/
def wordsAux : List Char → List Char → List (List Char)
  | [], acc => if acc.isEmpty then [] else [acc.reverse]
  | c :: rest, acc =>
    if pyIsSpace c then
      if acc.isEmpty then wordsAux rest [] else acc.reverse :: wordsAux rest []
    else wordsAux rest (c :: acc)

/-- Python `text.split()`: whitespace-separated words, no empty tokens. -/
def pyWords (l : List Char) : List (List Char) := wordsAux l []

/-- Python `" ".join(ws)`. -/
def joinSpace : List (List Char) → List Char
  | [] => []
  | [w] => w
  | w :: ws => w ++ ' ' :: joinSpace ws

/-! ### `_sanitize_target_object` (src/workflow/nodes/planning.py, lines 7-24) -/

/-- The bracket/punctuation separators `("(", "[", "{", " - ", ":", ";")`. -/
def bracketSeps : List (List Char) :=
  [['('], ['['], ['\x7b'], [' ', '-', ' '], [':'], [';']]

/-- The clause separators `(" with ", " featuring ", " that ", " to ")`. -/
def clauseSeps : List (List Char) :=
  [" with ".data, " featuring ".data, " that ".data, " to ".data]

/-- Characters stripped from the right at the end: `text.rstrip(" .,-")`. -/
def rstripTail : List Char := [' ', '.', ',', '-']

/-- The sanitizer body up to (and including) the `rstrip(" .,-")` step. -/
def preWordText (raw : List Char) : List Char :=
  let t1 := pyStrip raw
  let t2 := cutAll bracketSeps t1
  let t3 := cutAll clauseSeps t2
  let t4 := pyStrip (removeQuotes t3)
  let t5 := if startsWithArticle t4 then pyStrip (afterFirstSpace t4) else t4
  rstripSet rstripTail t5

/-- The sanitizer body including the 4-word cap. -/
def cappedText (raw : List Char) : List Char :=
  let t := preWordText raw
  let ws := pyWords t
  if ws.length > 4 then joinSpace (ws.take 4) else t

/-- The full sanitizer body on character lists (`return text or "object"`). -/
def sanitizeCore (raw : List Char) : List Char :=
  let t := cappedText raw
  if t.isEmpty then "object".data else t

/-- `_sanitize_target_object(raw)`: `if not raw: return "object"` then the
  pipeline above. `none` models Python `None`. -/
def _sanitize_target_object (raw : Option String) : String :=
  match raw with
  | none => "object"
  | some s => if s.isEmpty then "object" else ⟨sanitizeCore s.data⟩

/-- Number of words of a string in the sense of Python `str.split()`. -/
def wordCount (s : String) : Nat := (pyWords s.data).length

/-- The spec's predicate "begins with a leading article ('a', 'an', 'the')":
  the output is a bare article or starts with an article followed by a space.
  This definition follows the spec's words (it is the property being claimed,
  not code of the repository). -/
def beginsWithLeadingArticle (s : String) : Bool :=
  s = "a" || s = "an" || s = "the" ||
    ("a ".data).isPrefixOf s.data || ("an ".data).isPrefixOf s.data ||
    ("the ".data).isPrefixOf s.data

/-- The characters the spec forbids in sanitizer output. -/
def forbiddenChars : List Char := ['(', '[', '\x7b', ':', ';']

end StreetCF

namespace StreetCF

/-! ### Data model (src/workflow/state.py together with the node deltas)

`AgentState` carries the fields the baseline workflow reads and writes.  Keys
are modelled as record fields; "key absent" initial values are the zeroed
defaults the driver supplies (src/utils/pipeline.py, lines 49-59), and node
return values are merged last-write-wins per field, as LangGraph does. -/

structure GeneratedCritiqueResult where
  is_realistic : Bool
  is_minimal_edit : Bool
  notes : String
deriving Repr, DecidableEq

structure PlanResult where
  edit_plan : String
  target_object : String
deriving Repr, DecidableEq

/-- Outcome of the Editing stage as seen by the graph: the returned path and
  the client's `last_baseline_used_mock` flag (src/workflow/graph.py 18-31). -/
structure EditOutcome where
  edited_image_path : String
  used_mock : Bool
deriving Repr, DecidableEq

structure AgentState where
  image_path : String
  edit_plan : Option String
  target_object : Option String
  edited_image_path : Option String
  used_mock : Bool
  attempts : Nat
  is_realistic : Bool
  is_minimal_edit : Bool
  critic_notes : Option String
deriving Repr, DecidableEq

/-- Python truthiness of an optional string: `not x` holds for `None` and `""`. -/
def optFalsy : Option String → Bool
  | none => true
  | some s => s.isEmpty

/-! ### `critique_generated_node` (src/workflow/nodes/criticism.py, lines 7-40)

The Python function is a guard (`raise ValueError` on falsy inputs) followed
by two returns that differ only in where the critique flags come from; it is
embedded as the guard `missingCritiqueInput` plus the total update
`critique_apply`.  The `Bool` paired with the updated state records whether
the external critic backend (`planner.critique_generated`) was invoked: the
`used_mock` branch returns before that call. -/

def missingCritiqueInput (s : AgentState) : Bool :=
  s.image_path.isEmpty || optFalsy s.edited_image_path ||
    optFalsy s.edit_plan || optFalsy s.target_object

def critiqueErrMsg : String :=
  "Missing image_path, edited_image_path, edit_plan, or target_object."

/-- The state delta of the critique node, merged into the state.  `c` is the
  critique the external backend would return; the mock branch ignores it. -/
def critique_apply (s : AgentState) (c : GeneratedCritiqueResult) : AgentState :=
  if s.used_mock then
    { s with
      is_realistic := false
      is_minimal_edit := false
      critic_notes := some "mock_output=true; skipping critique."
      attempts := s.attempts + 1 }
  else
    { s with
      is_realistic := c.is_realistic
      is_minimal_edit := c.is_minimal_edit
      critic_notes := some c.notes
      attempts := s.attempts + 1 }

def critique_generated_node (state : AgentState) (critique : GeneratedCritiqueResult) :
    Except String (AgentState × Bool) :=
  if missingCritiqueInput state then .error critiqueErrMsg
  else .ok (critique_apply state critique, !state.used_mock)

/-! ### The remaining nodes and the router (graph.py, planning.py) -/

/-- `plan_edit_node` (src/workflow/nodes/planning.py, lines 27-41): the
  planner backend's `PlanResult` is an oracle input; the node merges the plan
  and the sanitized target object. -/
def plan_edit_node (state : AgentState) (result : PlanResult) : AgentState :=
  { state with
    edit_plan := some result.edit_plan
    target_object := some (_sanitize_target_object (some result.target_object)) }

/-- `baseline_node` delta (src/workflow/graph.py, lines 18-31): records the
  edited image path and the mock flag.  Its `if not edited_path` guard is
  modelled by `baseline_node_guard` below and proved unreachable against
  `image_edit_baseline` (claim C10), so the delta here is total. -/
def baseline_node_update (state : AgentState) (e : EditOutcome) : AgentState :=
  { state with
    edited_image_path := some e.edited_image_path
    used_mock := e.used_mock }

/-- `critic_router` (src/workflow/graph.py, lines 43-48 and 96-101):
  `true` means END. -/
def critic_router (maxAttempts : Int) (state : AgentState) : Bool :=
  if state.is_realistic && state.is_minimal_edit then true
  else if (state.attempts : Int) ≥ maxAttempts then true
  else false

/-- Result of one engine run: the final state (or the propagated
  `ValueError`), the post-critique state of every completed iteration in
  order, and how many times the Planning stage ran. -/
structure RunOutcome where
  result : Except String AgentState
  trace : List AgentState
  planCalls : Nat
deriving Repr

theorem critique_apply_attempts (s : AgentState) (c : GeneratedCritiqueResult) :
    (critique_apply s c).attempts = s.attempts + 1 := by
  unfold critique_apply; split <;> rfl

theorem critic_router_eq_false {M : Int} {s : AgentState}
    (h : critic_router M s = false) :
    (s.is_realistic && s.is_minimal_edit) = false ∧ (s.attempts : Int) < M := by
  unfold critic_router at h
  split at h
  · cases h
  · split at h
    · cases h
    · refine ⟨by simp_all, by omega⟩

theorem plan_baseline_attempts (s : AgentState) (p : PlanResult) (e : EditOutcome) :
    (baseline_node_update (plan_edit_node s p) e).attempts = s.attempts := rfl

/-- One iteration's pre-critique state (after Planning and Editing). -/
def iterPre (plans : Nat → PlanResult) (edits : Nat → EditOutcome) (state : AgentState) :
    AgentState :=
  baseline_node_update (plan_edit_node state (plans state.attempts)) (edits state.attempts)

/-- One iteration's post-critique state.  Backend responses are oracle
  functions of the iteration index (= the `attempts` counter on entry). -/
def iterState (plans : Nat → PlanResult) (edits : Nat → EditOutcome)
    (crits : Nat → GeneratedCritiqueResult) (state : AgentState) : AgentState :=
  critique_apply (iterPre plans edits state) (crits state.attempts)

theorem iterState_attempts (plans : Nat → PlanResult) (edits : Nat → EditOutcome)
    (crits : Nat → GeneratedCritiqueResult) (state : AgentState) :
    (iterState plans edits crits state).attempts = state.attempts + 1 := by
  simp [iterState, critique_apply_attempts, iterPre, plan_baseline_attempts]

/-- The compiled baseline workflow from `state`: run one Plan→Edit→Critique
  iteration, then follow `critic_router`; a guard failure in the critique
  node propagates as the error result. -/
def runBaselineFrom (M : Int) (plans : Nat → PlanResult) (edits : Nat → EditOutcome)
    (crits : Nat → GeneratedCritiqueResult) (state : AgentState) : RunOutcome :=
  if missingCritiqueInput (iterPre plans edits state) then
    { result := .error critiqueErrMsg, trace := [], planCalls := 1 }
  else if critic_router M (iterState plans edits crits state) then
    { result := .ok (iterState plans edits crits state),
      trace := [iterState plans edits crits state], planCalls := 1 }
  else
    { result := (runBaselineFrom M plans edits crits (iterState plans edits crits state)).result,
      trace := iterState plans edits crits state ::
        (runBaselineFrom M plans edits crits (iterState plans edits crits state)).trace,
      planCalls :=
        (runBaselineFrom M plans edits crits (iterState plans edits crits state)).planCalls + 1 }
termination_by (M - state.attempts).toNat
decreasing_by
  rename_i hroute
  have h1 := iterState_attempts plans edits crits state
  have h2 := (critic_router_eq_false (by simpa using hroute)).2
  omega

/-- The loop body agrees with `critique_generated_node` (the guard/apply
  split above composes back to the Python node). -/
theorem runBaselineFrom_step (M : Int) (plans : Nat → PlanResult) (edits : Nat → EditOutcome)
    (crits : Nat → GeneratedCritiqueResult) (state : AgentState) :
    runBaselineFrom M plans edits crits state =
      match critique_generated_node (iterPre plans edits state) (crits state.attempts) with
      | .error e => { result := .error e, trace := [], planCalls := 1 }
      | .ok (s3, _called) =>
        if critic_router M s3 then
          { result := .ok s3, trace := [s3], planCalls := 1 }
        else
          { result := (runBaselineFrom M plans edits crits s3).result,
            trace := s3 :: (runBaselineFrom M plans edits crits s3).trace,
            planCalls := (runBaselineFrom M plans edits crits s3).planCalls + 1 } := by
  rw [runBaselineFrom.eq_def]
  unfold critique_generated_node
  split <;> simp [iterState]

/-- The fresh per-image state the driver passes to `app.invoke`
  (src/utils/pipeline.py, lines 49-59). -/
def initState (image_path : String) : AgentState :=
  { image_path := image_path, edit_plan := none, target_object := none,
    edited_image_path := none, used_mock := false, attempts := 0,
    is_realistic := false, is_minimal_edit := false, critic_notes := none }

def runBaseline (M : Int) (plans : Nat → PlanResult) (edits : Nat → EditOutcome)
    (crits : Nat → GeneratedCritiqueResult) (image_path : String) : RunOutcome :=
  runBaselineFrom M plans edits crits (initState image_path)

/-! ### Engine invariants -/

theorem trace_attempts_le (M : Int) (plans : Nat → PlanResult) (edits : Nat → EditOutcome)
    (crits : Nat → GeneratedCritiqueResult) (state : AgentState) :
    (state.attempts : Int) < M →
    ∀ t ∈ (runBaselineFrom M plans edits crits state).trace, (t.attempts : Int) ≤ M := by
  induction state using runBaselineFrom.induct M plans edits crits with
  | case1 x hmiss =>
    intro _ t ht
    rw [runBaselineFrom.eq_def] at ht
    simp [hmiss] at ht
  | case2 x hmiss hroute =>
    intro hx t ht
    rw [runBaselineFrom.eq_def] at ht
    simp [hmiss, hroute] at ht
    have h1 := iterState_attempts plans edits crits x
    subst ht
    omega
  | case3 x hmiss hroute ih =>
    intro hx t ht
    rw [runBaselineFrom.eq_def] at ht
    simp [hmiss, hroute] at ht
    have h1 := iterState_attempts plans edits crits x
    have h2 := (critic_router_eq_false (by simpa using hroute)).2
    rcases ht with rfl | ht
    · omega
    · exact ih (by omega) t ht

theorem ok_mem_trace (M : Int) (plans : Nat → PlanResult) (edits : Nat → EditOutcome)
    (crits : Nat → GeneratedCritiqueResult) (state : AgentState) :
    ∀ f, (runBaselineFrom M plans edits crits state).result = .ok f →
      f ∈ (runBaselineFrom M plans edits crits state).trace := by
  induction state using runBaselineFrom.induct M plans edits crits with
  | case1 x hmiss =>
    intro f hf
    rw [runBaselineFrom.eq_def] at hf ⊢
    simp [hmiss] at hf
  | case2 x hmiss hroute =>
    intro f hf
    rw [runBaselineFrom.eq_def] at hf ⊢
    simp [hmiss, hroute] at hf ⊢
    exact hf.symm
  | case3 x hmiss hroute ih =>
    intro f hf
    rw [runBaselineFrom.eq_def] at hf ⊢
    simp [hmiss, hroute] at hf ⊢
    exact Or.inr (ih f hf)

theorem getLast?_cons_ne {α : Type} (a : α) {l : List α} (h : l ≠ []) :
    (a :: l).getLast? = l.getLast? := by
  cases l with
  | nil => exact absurd rfl h
  | cons b l2 => exact List.getLast?_cons_cons

/-- A trace entry satisfying the success condition is the run's final state
  and the last completed iteration. -/
theorem success_is_last (M : Int) (plans : Nat → PlanResult) (edits : Nat → EditOutcome)
    (crits : Nat → GeneratedCritiqueResult) (state : AgentState) :
    ∀ t ∈ (runBaselineFrom M plans edits crits state).trace,
      t.is_realistic = true → t.is_minimal_edit = true →
      (runBaselineFrom M plans edits crits state).result = .ok t ∧
      (runBaselineFrom M plans edits crits state).trace.getLast? = some t := by
  induction state using runBaselineFrom.induct M plans edits crits with
  | case1 x hmiss =>
    intro t ht
    rw [runBaselineFrom.eq_def] at ht
    simp [hmiss] at ht
  | case2 x hmiss hroute =>
    intro t ht h1 h2
    rw [runBaselineFrom.eq_def] at ht ⊢
    simp [hmiss, hroute] at ht ⊢
    subst ht
    simp
  | case3 x hmiss hroute ih =>
    intro t ht h1 h2
    have hfalse := (critic_router_eq_false (by simpa using hroute)).1
    rw [runBaselineFrom.eq_def] at ht ⊢
    simp [hmiss, hroute] at ht ⊢
    rcases ht with rfl | ht
    · rw [h1, h2] at hfalse; cases hfalse
    · obtain ⟨hres, hlast⟩ := ih t ht h1 h2
      refine ⟨hres, ?_⟩
      have hne : (runBaselineFrom M plans edits crits
          (iterState plans edits crits x)).trace ≠ [] := by
        intro hnil
        rw [hnil] at hlast
        cases hlast
      rw [getLast?_cons_ne _ hne]
      exact hlast

/-- A run that ends normally ran the Planning stage once per completed
  iteration: no extra Planning call happens after the final critique. -/
theorem plan_calls_eq_trace_length (M : Int) (plans : Nat → PlanResult)
    (edits : Nat → EditOutcome) (crits : Nat → GeneratedCritiqueResult) (state : AgentState) :
    ∀ f, (runBaselineFrom M plans edits crits state).result = .ok f →
      (runBaselineFrom M plans edits crits state).planCalls =
        (runBaselineFrom M plans edits crits state).trace.length := by
  induction state using runBaselineFrom.induct M plans edits crits with
  | case1 x hmiss =>
    intro f hf
    rw [runBaselineFrom.eq_def] at hf
    simp [hmiss] at hf
  | case2 x hmiss hroute =>
    intro f hf
    rw [runBaselineFrom.eq_def]
    simp [hmiss, hroute]
  | case3 x hmiss hroute ih =>
    intro f hf
    rw [runBaselineFrom.eq_def] at hf ⊢
    simp [hmiss, hroute] at hf ⊢
    exact ih f hf

end StreetCF

deriving instance DecidableEq for Except

deriving instance DecidableEq for StreetCF.RunOutcome

namespace StreetCF

/-! ### Concrete runs used to instantiate the engine theorems -/

def demoPlans : Nat → PlanResult :=
  fun _ => { edit_plan := "repaint the door", target_object := "door" }

def demoEdits : Nat → EditOutcome :=
  fun _ => { edited_image_path := "out.png", used_mock := false }

def demoFailCrits : Nat → GeneratedCritiqueResult :=
  fun _ => { is_realistic := false, is_minimal_edit := false, notes := "not minimal" }

def demoOkCrits : Nat → GeneratedCritiqueResult :=
  fun _ => { is_realistic := true, is_minimal_edit := true, notes := "looks fine" }

def demoFail1 : AgentState :=
  { image_path := "img.png", edit_plan := some "repaint the door",
    target_object := some "door", edited_image_path := some "out.png",
    used_mock := false, attempts := 1, is_realistic := false,
    is_minimal_edit := false, critic_notes := some "not minimal" }

def demoFail2 : AgentState := { demoFail1 with attempts := 2 }

def demoOk1 : AgentState :=
  { demoFail1 with
    is_realistic := true
    is_minimal_edit := true
    critic_notes := some "looks fine" }

theorem demoRunFail2_eq :
    runBaseline 2 demoPlans demoEdits demoFailCrits "img.png" =
      { result := .ok demoFail2, trace := [demoFail1, demoFail2], planCalls := 2 } := by
  rw [runBaseline, runBaselineFrom.eq_def]
  norm_num [initState, iterState, iterPre, demoPlans, demoEdits, demoFailCrits,
    missingCritiqueInput, optFalsy, plan_edit_node, baseline_node_update, critique_apply,
    critic_router]
  rw [runBaselineFrom.eq_def]
  norm_num [initState, iterState, iterPre, demoPlans, demoEdits, demoFailCrits,
    missingCritiqueInput, optFalsy, plan_edit_node, baseline_node_update, critique_apply,
    critic_router]
  decide

theorem demoRunOk_eq :
    runBaseline 5 demoPlans demoEdits demoOkCrits "img.png" =
      { result := .ok demoOk1, trace := [demoOk1], planCalls := 1 } := by
  rw [runBaseline, runBaselineFrom.eq_def]
  norm_num [initState, iterState, iterPre, demoPlans, demoEdits, demoOkCrits,
    missingCritiqueInput, optFalsy, plan_edit_node, baseline_node_update, critique_apply,
    critic_router]
  decide

theorem demoRunZero_eq :
    runBaseline 0 demoPlans demoEdits demoFailCrits "img.png" =
      { result := .ok demoFail1, trace := [demoFail1], planCalls := 1 } := by
  rw [runBaseline, runBaselineFrom.eq_def]
  norm_num [initState, iterState, iterPre, demoPlans, demoEdits, demoFailCrits,
    missingCritiqueInput, optFalsy, plan_edit_node, baseline_node_update, critique_apply,
    critic_router]
  decide

/-! ### Claim theorems for the workflow engine -/

/-- C1: for every run of the workflow engine with `max_attempts = N ≥ 1`,
  every completed iteration's state (and the final state) satisfies
  `attempts ≤ N`, and the final state has `attempts = N` only if no earlier
  completed iteration ended with `is_realistic` and `is_minimal_edit` both
  true. -/
theorem engine_attempts_le_max (M : Int) (plans : Nat → PlanResult)
    (edits : Nat → EditOutcome) (crits : Nat → GeneratedCritiqueResult) (img : String)
    (hM : 1 ≤ M) :
    (∀ t ∈ (runBaseline M plans edits crits img).trace, (t.attempts : Int) ≤ M) ∧
    ∀ f, (runBaseline M plans edits crits img).result = .ok f →
      (f.attempts : Int) ≤ M ∧
      ((f.attempts : Int) = M →
        ∀ t ∈ (runBaseline M plans edits crits img).trace, (t.attempts : Int) < M →
          ¬(t.is_realistic = true ∧ t.is_minimal_edit = true)) := by
  have h0 : ((initState img).attempts : Int) < M := by
    simp only [initState]
    omega
  refine ⟨trace_attempts_le M plans edits crits (initState img) h0, ?_⟩
  intro f hf
  have hmem := ok_mem_trace M plans edits crits (initState img) f hf
  refine ⟨trace_attempts_le M plans edits crits (initState img) h0 f hmem, ?_⟩
  rintro hfM t ht htlt ⟨hr, hm⟩
  have hsucc := (success_is_last M plans edits crits (initState img) t ht hr hm).1
  have hf2 : (runBaselineFrom M plans edits crits (initState img)).result = .ok f := hf
  rw [hf2] at hsucc
  have hft : f = t := by
    injection hsucc
  rw [← hft] at htlt
  omega

/-- C1 witness: at `max_attempts = 2` with a critic that always rejects, the
  final state of the concrete run respects the bound. -/
theorem engine_attempts_le_max_witness : (demoFail2.attempts : Int) ≤ 2 :=
  ((engine_attempts_le_max 2 demoPlans demoEdits demoFailCrits "img.png" (by decide)).2
    demoFail2 (by rw [demoRunFail2_eq])).1

/-- C2: once a critique sets both `is_realistic` and `is_minimal_edit`, the
  engine terminates at that very iteration — the successful state is the run's
  final state and the last trace entry, and Planning ran exactly once per
  completed iteration (so no further Planning call follows the success),
  regardless of the remaining attempt budget. -/
theorem engine_success_short_circuit (M : Int) (plans : Nat → PlanResult)
    (edits : Nat → EditOutcome) (crits : Nat → GeneratedCritiqueResult) (img : String) :
    ∀ t ∈ (runBaseline M plans edits crits img).trace,
      t.is_realistic = true → t.is_minimal_edit = true →
      (runBaseline M plans edits crits img).result = .ok t ∧
      (runBaseline M plans edits crits img).trace.getLast? = some t ∧
      (runBaseline M plans edits crits img).planCalls =
        (runBaseline M plans edits crits img).trace.length := by
  intro t ht hr hm
  obtain ⟨h1, h2⟩ := success_is_last M plans edits crits (initState img) t ht hr hm
  exact ⟨h1, h2, plan_calls_eq_trace_length M plans edits crits (initState img) t h1⟩

/-- C2 witness: with `max_attempts = 5` and a critic that immediately
  accepts, the run ends at the first iteration and planned exactly once. -/
theorem engine_success_short_circuit_witness :
    (runBaseline 5 demoPlans demoEdits demoOkCrits "img.png").result = .ok demoOk1 ∧
    (runBaseline 5 demoPlans demoEdits demoOkCrits "img.png").trace.getLast? = some demoOk1 ∧
    (runBaseline 5 demoPlans demoEdits demoOkCrits "img.png").planCalls =
      (runBaseline 5 demoPlans demoEdits demoOkCrits "img.png").trace.length :=
  engine_success_short_circuit 5 demoPlans demoEdits demoOkCrits "img.png" demoOk1
    (by rw [demoRunOk_eq]; decide) (by decide) (by decide)

/-- C5: if `max_attempts` is zero or negative, the engine still executes
  exactly one full Plan→Edit→Critique iteration before terminating: Planning
  runs once, and a normally-ending run has `attempts = 1` with exactly one
  completed iteration. -/
theorem engine_nonpositive_max_one_iteration (M : Int) (plans : Nat → PlanResult)
    (edits : Nat → EditOutcome) (crits : Nat → GeneratedCritiqueResult) (img : String)
    (hM : M ≤ 0) :
    (runBaseline M plans edits crits img).planCalls = 1 ∧
    ∀ f, (runBaseline M plans edits crits img).result = .ok f →
      f.attempts = 1 ∧ (runBaseline M plans edits crits img).trace = [f] := by
  have ha := iterState_attempts plans edits crits (initState img)
  have h1 : ((iterState plans edits crits (initState img)).attempts : Int) ≥ M := by
    rw [ha]
    simp only [initState]
    omega
  have hrt : critic_router M (iterState plans edits crits (initState img)) = true := by
    unfold critic_router
    split <;> simp [h1]
  rw [runBaseline, runBaselineFrom.eq_def]
  split
  · refine ⟨rfl, ?_⟩
    intro f hf
    cases hf
  · refine ⟨rfl, ?_⟩
    intro f hf
    have hfi : iterState plans edits crits (initState img) = f := by
      injection hf
    rw [← hfi, ha]
    simp [initState]

/-- C5 witness: at `max_attempts = 0` the concrete run still performs one
  full iteration and finishes with `attempts = 1`. -/
theorem engine_nonpositive_max_one_iteration_witness :
    demoFail1.attempts = 1 ∧
    (runBaseline 0 demoPlans demoEdits demoFailCrits "img.png").trace = [demoFail1] :=
  (engine_nonpositive_max_one_iteration 0 demoPlans demoEdits demoFailCrits "img.png"
    (by decide)).2 demoFail1 (by rw [demoRunZero_eq])

/-! ### Claim theorems for the mock short-circuit in the critique node -/

def mockDemoState : AgentState :=
  { image_path := "img.png", edit_plan := some "repaint the door",
    target_object := some "door", edited_image_path := some "out.png",
    used_mock := true, attempts := 0, is_realistic := false,
    is_minimal_edit := false, critic_notes := none }

def mockDemoCritique : GeneratedCritiqueResult :=
  { is_realistic := true, is_minimal_edit := true, notes := "backend would accept" }

/-- C3 (counterexample): on a mock-edited state the critique node returns the
  notes string `"mock_output=true; skipping critique."`, which is not the
  claimed exact value `"mock_output=true"`. -/
theorem critique_mock_notes_counterexample :
    critique_generated_node mockDemoState mockDemoCritique =
      .ok ({ mockDemoState with
        critic_notes := some "mock_output=true; skipping critique."
        attempts := 1 }, false) ∧
    ("mock_output=true; skipping critique." : String) ≠ "mock_output=true" := by
  constructor
  · decide
  · decide

/-- C3 (amended): if the Editing stage set `used_mock = true` (and the
  critique node's input guard passes), the critique node does not invoke the
  external critic backend (the invocation flag is `false` and the result does
  not depend on the critique the backend would have produced) and returns
  exactly `is_realistic = false`, `is_minimal_edit = false`, notes
  `"mock_output=true; skipping critique."` — a string beginning with
  `mock_output=true` — while still incrementing `attempts` by 1. -/
theorem critique_mock_short_circuit_amended (s : AgentState)
    (c : GeneratedCritiqueResult)
    (h1 : s.image_path.isEmpty = false) (h2 : optFalsy s.edited_image_path = false)
    (h3 : optFalsy s.edit_plan = false) (h4 : optFalsy s.target_object = false)
    (hm : s.used_mock = true) :
    critique_generated_node s c =
      .ok ({ s with
        is_realistic := false
        is_minimal_edit := false
        critic_notes := some "mock_output=true; skipping critique."
        attempts := s.attempts + 1 }, false) := by
  unfold critique_generated_node missingCritiqueInput critique_apply
  rw [h1, h2, h3, h4, hm]
  simp

/-- C3 witness: the amended behaviour at a concrete mock-edited state. -/
theorem critique_mock_short_circuit_amended_witness :
    critique_generated_node mockDemoState mockDemoCritique =
      .ok ({ mockDemoState with
        is_realistic := false
        is_minimal_edit := false
        critic_notes := some "mock_output=true; skipping critique."
        attempts := mockDemoState.attempts + 1 }, false) :=
  critique_mock_short_circuit_amended mockDemoState mockDemoCritique
    (by decide) (by decide) (by decide) (by decide) (by decide)

end StreetCF

namespace StreetCF

/-! ### Character-membership lemmas for the sanitizer stages -/

theorem mem_pyStrip {c : Char} {l : List Char} (h : c ∈ pyStrip l) : c ∈ l := by
  unfold pyStrip at h
  rw [List.mem_reverse] at h
  have h2 := (List.dropWhile_sublist _).subset h
  rw [List.mem_reverse] at h2
  exact (List.dropWhile_sublist _).subset h2

theorem mem_rstripSet {c : Char} {set l : List Char} (h : c ∈ rstripSet set l) : c ∈ l := by
  unfold rstripSet at h
  rw [List.mem_reverse] at h
  have h2 := (List.dropWhile_sublist _).subset h
  rwa [List.mem_reverse] at h2

theorem mem_takeBefore {c : Char} {sep : List Char} :
    ∀ {l : List Char}, c ∈ takeBefore sep l → c ∈ l := by
  intro l
  induction l with
  | nil => intro h; cases h
  | cons a rest ih =>
    intro h
    unfold takeBefore at h
    split at h
    · cases h
    · rcases List.mem_cons.mp h with rfl | h
      · exact List.mem_cons_self _ _
      · exact List.mem_cons_of_mem _ (ih h)

theorem mem_cutSep {c : Char} {sep l : List Char} (h : c ∈ cutSep sep l) : c ∈ l := by
  unfold cutSep at h
  split at h
  · exact mem_takeBefore (mem_pyStrip h)
  · exact h

theorem mem_cutAll {c : Char} {seps : List (List Char)} :
    ∀ {l : List Char}, c ∈ cutAll seps l → c ∈ l := by
  induction seps with
  | nil => intro l h; exact h
  | cons s rest ih =>
    intro l h
    have h2 : c ∈ cutAll rest (cutSep s l) := h
    exact mem_cutSep (ih h2)

theorem mem_removeQuotes {c : Char} {l : List Char} (h : c ∈ removeQuotes l) : c ∈ l :=
  (List.mem_filter.mp h).1

theorem mem_afterFirstSpace {c : Char} :
    ∀ {l : List Char}, c ∈ afterFirstSpace l → c ∈ l := by
  intro l
  induction l with
  | nil => intro h; cases h
  | cons a rest ih =>
    intro h
    unfold afterFirstSpace at h
    split at h
    · exact List.mem_cons_of_mem _ h
    · exact List.mem_cons_of_mem _ (ih h)

theorem mem_preWordText_toBrackets {c : Char} {raw : List Char} (h : c ∈ preWordText raw) :
    c ∈ cutAll bracketSeps (pyStrip raw) := by
  unfold preWordText at h
  have h1 := mem_rstripSet h
  split at h1
  · exact mem_cutAll (mem_removeQuotes (mem_pyStrip (mem_afterFirstSpace (mem_pyStrip h1))))
  · exact mem_cutAll (mem_removeQuotes (mem_pyStrip h1))

/-! ### The bracket cuts remove their separator characters -/

theorem hasSub_single {b : Char} : ∀ {l : List Char}, b ∈ l → hasSub [b] l = true := by
  intro l
  induction l with
  | nil => intro h; cases h
  | cons a rest ih =>
    intro h
    unfold hasSub
    rcases List.mem_cons.mp h with rfl | h
    · simp [List.isPrefixOf]
    · simp [ih h]

theorem not_mem_takeBefore_single (b : Char) : ∀ (l : List Char), b ∉ takeBefore [b] l := by
  intro l
  induction l with
  | nil => simp [takeBefore]
  | cons a rest ih =>
    unfold takeBefore
    split
    · simp
    · rename_i hp
      intro h
      rcases List.mem_cons.mp h with rfl | h
      · simp [List.isPrefixOf] at hp
      · exact ih h

theorem not_mem_cutSep_single (b : Char) (l : List Char) : b ∉ cutSep [b] l := by
  unfold cutSep
  split
  · intro h
    exact not_mem_takeBefore_single b l (mem_pyStrip h)
  · rename_i hns
    intro h
    exact hns (hasSub_single h)

theorem not_mem_cutSep (b : Char) {l : List Char} (sep : List Char) (h : b ∉ l) :
    b ∉ cutSep sep l := fun hc => h (mem_cutSep hc)

theorem forbidden_not_mem_cutBrackets {b : Char} (hb : b ∈ forbiddenChars) (l : List Char) :
    b ∉ cutAll bracketSeps l := by
  have e : cutAll bracketSeps l =
      cutSep [';'] (cutSep [':'] (cutSep [' ', '-', ' ']
        (cutSep ['\x7b'] (cutSep ['['] (cutSep ['('] l))))) := rfl
  rw [e]
  simp only [forbiddenChars, List.mem_cons, List.not_mem_nil, or_false] at hb
  rcases hb with rfl | rfl | rfl | rfl | rfl
  · exact not_mem_cutSep _ _ (not_mem_cutSep _ _ (not_mem_cutSep _ _
      (not_mem_cutSep _ _ (not_mem_cutSep _ _ (not_mem_cutSep_single _ _)))))
  · exact not_mem_cutSep _ _ (not_mem_cutSep _ _ (not_mem_cutSep _ _
      (not_mem_cutSep _ _ (not_mem_cutSep_single _ _))))
  · exact not_mem_cutSep _ _ (not_mem_cutSep _ _ (not_mem_cutSep _ _
      (not_mem_cutSep_single _ _)))
  · exact not_mem_cutSep _ _ (not_mem_cutSep_single _ _)
  · exact not_mem_cutSep_single _ _

/-! ### Words and joins -/

theorem joinSpace_cons_cons (w w2 : List Char) (rest : List (List Char)) :
    joinSpace (w :: w2 :: rest) = w ++ ' ' :: joinSpace (w2 :: rest) := rfl

theorem mem_joinSpace {c : Char} : ∀ {ws : List (List Char)}, c ∈ joinSpace ws →
    c = ' ' ∨ ∃ w, w ∈ ws ∧ c ∈ w := by
  intro ws
  induction ws with
  | nil => intro h; cases h
  | cons w ws ih =>
    intro h
    cases ws with
    | nil => exact Or.inr ⟨w, by simp, by simpa [joinSpace] using h⟩
    | cons w2 rest =>
      rw [joinSpace_cons_cons] at h
      rcases List.mem_append.mp h with h | h
      · exact Or.inr ⟨w, by simp, h⟩
      · rcases List.mem_cons.mp h with rfl | h
        · exact Or.inl rfl
        · rcases ih h with h | ⟨u, hu, hc⟩
          · exact Or.inl h
          · exact Or.inr ⟨u, by simp [hu], hc⟩

theorem mem_wordsAux_chars {c : Char} :
    ∀ (l acc w : List Char), w ∈ wordsAux l acc → c ∈ w → c ∈ l ∨ c ∈ acc := by
  intro l
  induction l with
  | nil =>
    intro acc w hw hc
    unfold wordsAux at hw
    split at hw
    · cases hw
    · rw [List.mem_singleton] at hw
      subst hw
      right
      rwa [List.mem_reverse] at hc
  | cons a rest ih =>
    intro acc w hw hc
    unfold wordsAux at hw
    split at hw
    · split at hw
      · rcases ih [] w hw hc with h | h
        · exact Or.inl (List.mem_cons_of_mem _ h)
        · cases h
      · rcases List.mem_cons.mp hw with rfl | hw
        · right; rwa [List.mem_reverse] at hc
        · rcases ih [] w hw hc with h | h
          · exact Or.inl (List.mem_cons_of_mem _ h)
          · cases h
    · rcases ih (a :: acc) w hw hc with h | h
      · exact Or.inl (List.mem_cons_of_mem _ h)
      · rcases List.mem_cons.mp h with rfl | h
        · exact Or.inl (List.mem_cons_self _ _)
        · exact Or.inr h

theorem mem_words_chars {c : Char} {t w : List Char} (hw : w ∈ pyWords t) (hc : c ∈ w) :
    c ∈ t := by
  rcases mem_wordsAux_chars t [] w hw hc with h | h
  · exact h
  · cases h

theorem mem_cappedText {c : Char} {raw : List Char} (h : c ∈ cappedText raw) :
    c = ' ' ∨ c ∈ preWordText raw := by
  have h2 : c ∈ (if (pyWords (preWordText raw)).length > 4
      then joinSpace (List.take 4 (pyWords (preWordText raw))) else preWordText raw) := h
  clear h
  rename' h2 => h
  split at h
  · rcases mem_joinSpace h with h | ⟨w, hw, hc⟩
    · exact Or.inl h
    · exact Or.inr (mem_words_chars (List.take_subset _ _ hw) hc)
  · exact Or.inr h

theorem forbidden_not_mem_object {b : Char} (hb : b ∈ forbiddenChars) :
    b ∉ "object".data := by
  simp only [forbiddenChars, List.mem_cons, List.not_mem_nil, or_false] at hb
  rcases hb with rfl | rfl | rfl | rfl | rfl <;> decide

theorem forbidden_not_mem_sanitizeCore {b : Char} (hb : b ∈ forbiddenChars)
    (raw : List Char) : b ∉ sanitizeCore raw := by
  show b ∉ (if (cappedText raw).isEmpty then "object".data else cappedText raw)
  split
  · exact forbidden_not_mem_object hb
  · intro h
    rcases mem_cappedText h with rfl | h
    · revert hb; decide
    · exact forbidden_not_mem_cutBrackets hb _ (mem_preWordText_toBrackets h)

/-! ### Word-count bound -/

theorem wordsAux_all_nonspace :
    ∀ (l acc : List Char), (∀ c ∈ l, pyIsSpace c = false) →
      wordsAux l acc = if (acc.reverse ++ l).isEmpty then [] else [acc.reverse ++ l] := by
  intro l
  induction l with
  | nil =>
    intro acc _
    cases acc with
    | nil => simp [wordsAux]
    | cons a as => simp [wordsAux]
  | cons c rest ih =>
    intro acc hn
    have hc : pyIsSpace c = false := hn c (List.mem_cons_self _ _)
    rw [wordsAux, hc]
    simp only [Bool.false_eq_true, if_false]
    rw [ih (c :: acc) (fun d hd => hn d (List.mem_cons_of_mem _ hd))]
    simp

theorem wordsAux_word_space :
    ∀ (w acc rest : List Char), (∀ c ∈ w, pyIsSpace c = false) →
      wordsAux (w ++ ' ' :: rest) acc =
        (if (acc.reverse ++ w).isEmpty then [] else [acc.reverse ++ w]) ++ wordsAux rest [] := by
  intro w
  induction w with
  | nil =>
    intro acc rest _
    show wordsAux (' ' :: rest) acc = _
    have hsp : pyIsSpace ' ' = true := by decide
    rw [wordsAux, hsp]
    cases acc with
    | nil => simp
    | cons a as => simp
  | cons c w ih =>
    intro acc rest hn
    have hc : pyIsSpace c = false := hn c (List.mem_cons_self _ _)
    show wordsAux (c :: (w ++ ' ' :: rest)) acc = _
    rw [wordsAux, hc]
    simp only [Bool.false_eq_true, if_false]
    rw [ih (c :: acc) rest (fun d hd => hn d (List.mem_cons_of_mem _ hd))]
    simp

theorem wordsAux_words_ok :
    ∀ (l acc : List Char), (∀ c ∈ acc, pyIsSpace c = false) →
      ∀ w ∈ wordsAux l acc, w ≠ [] ∧ ∀ c ∈ w, pyIsSpace c = false := by
  intro l
  induction l with
  | nil =>
    intro acc hacc w hw
    unfold wordsAux at hw
    split at hw
    · cases hw
    · rename_i hne
      rw [List.mem_singleton] at hw
      subst hw
      constructor
      · intro hrev
        apply hne
        have : acc = [] := by simpa using congrArg List.reverse hrev
        simp [this]
      · intro c hc
        exact hacc c (List.mem_reverse.mp hc)
  | cons a rest ih =>
    intro acc hacc w hw
    unfold wordsAux at hw
    split at hw
    · split at hw
      · exact ih [] (by simp) w hw
      · rename_i hne
        rcases List.mem_cons.mp hw with rfl | hw
        · constructor
          · intro hrev
            apply hne
            have : acc = [] := by simpa using congrArg List.reverse hrev
            simp [this]
          · intro c hc
            exact hacc c (List.mem_reverse.mp hc)
        · exact ih [] (by simp) w hw
    · rename_i hns
      refine ih (a :: acc) ?_ w hw
      intro c hc
      rcases List.mem_cons.mp hc with rfl | hc
      · simpa using hns
      · exact hacc c hc

theorem pyWords_join (ws : List (List Char))
    (h : ∀ w ∈ ws, w ≠ [] ∧ ∀ c ∈ w, pyIsSpace c = false) :
    pyWords (joinSpace ws) = ws := by
  induction ws with
  | nil => rfl
  | cons w rest ih =>
    cases rest with
    | nil =>
      obtain ⟨hne, hns⟩ := h w (List.mem_cons_self _ _)
      show pyWords (joinSpace [w]) = [w]
      unfold pyWords
      have : joinSpace [w] = w := rfl
      rw [this, wordsAux_all_nonspace w [] hns]
      simp [hne]
    | cons w2 rest2 =>
      obtain ⟨hne, hns⟩ := h w (List.mem_cons_self _ _)
      unfold pyWords
      rw [joinSpace_cons_cons, wordsAux_word_space w [] _ hns]
      have hrec : wordsAux (joinSpace (w2 :: rest2)) [] = w2 :: rest2 :=
        ih (fun u hu => h u (List.mem_cons_of_mem _ hu))
      rw [hrec]
      simp [hne]

theorem cappedText_words_le (raw : List Char) : (pyWords (cappedText raw)).length ≤ 4 := by
  show (pyWords (if (pyWords (preWordText raw)).length > 4
      then joinSpace (List.take 4 (pyWords (preWordText raw))) else preWordText raw)).length ≤ 4
  split
  · rw [pyWords_join]
    · simp [List.length_take]
    · intro w hw
      exact wordsAux_words_ok (preWordText raw) [] (by simp) w (List.take_subset _ _ hw)
  · rename_i hle
    omega

theorem sanitizeCore_ne_nil (raw : List Char) : sanitizeCore raw ≠ [] := by
  show (if (cappedText raw).isEmpty then "object".data else cappedText raw) ≠ []
  split
  · decide
  · rename_i hne
    simpa using hne

theorem sanitizeCore_words_le (raw : List Char) :
    (pyWords (sanitizeCore raw)).length ≤ 4 := by
  show (pyWords (if (cappedText raw).isEmpty then "object".data else cappedText raw)).length ≤ 4
  split
  · decide
  · exact cappedText_words_le raw

/-! ### String-level sanitizer properties -/

theorem mk_ne_empty {l : List Char} (h : l ≠ []) : (⟨l⟩ : String) ≠ "" := by
  intro he
  apply h
  have h2 : (⟨l⟩ : String).data = ("" : String).data := by rw [he]
  simpa using h2

theorem sanitize_some_ne_empty (s : String) : _sanitize_target_object (some s) ≠ "" := by
  show (if s.isEmpty then "object" else ⟨sanitizeCore s.data⟩) ≠ ""
  split
  · decide
  · exact mk_ne_empty (sanitizeCore_ne_nil s.data)

theorem wordCount_mk (l : List Char) : wordCount ⟨l⟩ = (pyWords l).length := rfl

theorem mk_data (l : List Char) : (⟨l⟩ : String).data = l := rfl

theorem sanitize_some_words_le (s : String) :
    wordCount (_sanitize_target_object (some s)) ≤ 4 := by
  show wordCount (if s.isEmpty then "object" else ⟨sanitizeCore s.data⟩) ≤ 4
  split
  · decide
  · rw [wordCount_mk]
    exact sanitizeCore_words_le s.data

theorem sanitize_some_no_forbidden (s : String) {b : Char} (hb : b ∈ forbiddenChars) :
    b ∉ (_sanitize_target_object (some s)).data := by
  show b ∉ (if s.isEmpty then "object" else (⟨sanitizeCore s.data⟩ : String)).data
  split
  · exact forbidden_not_mem_object hb
  · rw [mk_data]
    exact forbidden_not_mem_sanitizeCore hb s.data

/-! ### Claim theorems for the sanitizer -/

/-- C4 (counterexample): the sanitizer maps "the a cat" to "a cat", which
  begins with the leading article "a" — the claimed clause "never begins with
  a leading article" fails (only one leading article is stripped). -/
theorem sanitize_article_counterexample :
    _sanitize_target_object (some "the a cat") = "a cat" ∧
    beginsWithLeadingArticle "a cat" = true := by
  constructor
  · decide
  · decide

/-- C4 (amended): for every input (including null/empty) the sanitizer
  returns a non-empty string of at most 4 words containing none of
  `(`, `[`, `{`, `:`, `;`; it returns the placeholder "object" when the input
  is empty or null; and it maps "A streetlight (rusted) that needs repair" to
  "streetlight".  (The original clause "never begins with a leading article"
  is dropped: only one leading article is removed, so stacked articles
  survive, as the counterexample shows.) -/
theorem sanitize_properties_amended (raw : Option String) :
    _sanitize_target_object raw ≠ "" ∧
    wordCount (_sanitize_target_object raw) ≤ 4 ∧
    (∀ b ∈ forbiddenChars, b ∉ (_sanitize_target_object raw).data) ∧
    ((raw = none ∨ raw = some "") → _sanitize_target_object raw = "object") ∧
    _sanitize_target_object (some "A streetlight (rusted) that needs repair") =
      "streetlight" := by
  refine ⟨?_, ?_, ?_, ?_, by decide⟩
  · match raw with
    | none => decide
    | some s => exact sanitize_some_ne_empty s
  · match raw with
    | none => decide
    | some s => exact sanitize_some_words_le s
  · match raw with
    | none => intro b hb; exact forbidden_not_mem_object hb
    | some s => intro b hb; exact sanitize_some_no_forbidden s hb
  · rintro (rfl | rfl) <;> decide

/-- C4 witness: the amended properties evaluated at concrete inputs. -/
theorem sanitize_properties_amended_witness :
    _sanitize_target_object none = "object" ∧
    wordCount (_sanitize_target_object none) ≤ 4 ∧
    '(' ∉ (_sanitize_target_object none).data :=
  ⟨(sanitize_properties_amended none).2.2.2.1 (Or.inl rfl),
    (sanitize_properties_amended none).2.1,
    (sanitize_properties_amended none).2.2.1 '(' (by decide)⟩

end StreetCF

namespace StreetCF

/-! ### replicate_client.py: images, paths, and `_match_size`

Images are modelled by their width, height and pixel data; PIL round-trips
(`Image.open` + `save` to PNG) are pixel-preserving, and the LANCZOS
resampler enters as an oracle. -/

structure Img where
  width : Nat
  height : Nat
  pix : List Nat
deriving Repr, DecidableEq

/-- `timestamped_path` (src/utils/paths.py, lines 10-13):
  `root / f"{stem}_{ts}{suffix}"`; the timestamp `ts` is an oracle input. -/
def timestamped_path (root stem suffix ts : String) : String :=
  root ++ "/" ++ stem ++ "_" ++ ts ++ suffix

/-- A PIL image size (width, height); PIL images have positive dimensions. -/
structure Size where
  w : Nat
  h : Nat
deriving Repr, DecidableEq

/-- Python 3 `round()` on the exact value: round half to even.  (The code
  computes `out_w * scale` in floats; the theorems below only use
  `n ≤ x → n ≤ round x`, which holds for every rounding of a value that far
  from a half-integer boundary.) -/
def pyRound (x : ℚ) : ℤ :=
  if x - ⌊x⌋ < 1 / 2 then ⌊x⌋
  else if 1 / 2 < x - ⌊x⌋ then ⌊x⌋ + 1
  else if ⌊x⌋ % 2 = 0 then ⌊x⌋ else ⌊x⌋ + 1

/-- The resize-and-crop geometry `_match_size` commits to: dimensions passed
  to `resize` and the box passed to `crop`. -/
structure CropSpec where
  new_w : ℤ
  new_h : ℤ
  left : ℤ
  top : ℤ
  right : ℤ
  bottom : ℤ
deriving Repr, DecidableEq

/-- `_match_size` (src/integrations/replicate_client.py, lines 439-453) on
  image geometry.  `none` models the early `return` when the sizes already
  match (the edited file is left untouched, bytes unchanged); otherwise the
  resize/crop geometry is returned.  `input_size` is the reference image
  (`input_path`), `output_size` the edited image (`output_path`).  Python's
  `//` is floor division; Lean's `/` on `ℤ` agrees with it for the positive
  divisor 2. -/
def _match_size (input_size output_size : Size) : Option CropSpec :=
  if input_size = output_size then none
  else
    let in_w : ℤ := input_size.w
    let in_h : ℤ := input_size.h
    let out_w : ℤ := output_size.w
    let out_h : ℤ := output_size.h
    let scale : ℚ := max ((in_w : ℚ) / (out_w : ℚ)) ((in_h : ℚ) / (out_h : ℚ))
    let new_w : ℤ := max 1 (pyRound ((out_w : ℚ) * scale))
    let new_h : ℤ := max 1 (pyRound ((out_h : ℚ) * scale))
    let left : ℤ := max 0 ((new_w - in_w) / 2)
    let top : ℤ := max 0 ((new_h - in_h) / 2)
    some { new_w := new_w, new_h := new_h, left := left, top := top,
           right := left + in_w, bottom := top + in_h }

/-- Applying `_match_size` to a saved image: unchanged on the early return;
  otherwise the crop-box geometry with resampled pixels (`resample` models
  `Image.resize(..., LANCZOS)` followed by `crop`). -/
def apply_match_size (resample : Img → Size → List Nat) (output inputRef : Img) : Img :=
  match _match_size ⟨inputRef.width, inputRef.height⟩ ⟨output.width, output.height⟩ with
  | none => output
  | some spec =>
    { width := (spec.right - spec.left).toNat, height := (spec.bottom - spec.top).toNat,
      pix := resample output ⟨inputRef.width, inputRef.height⟩ }

/-! ### replicate_client.py: `image_edit_baseline` -/

/-- A value of the kind `_write_output` inspects in a backend result:
  a `replicate.helpers.FileOutput`, a string URL, an object with `.read()`,
  or anything else (`None`, dicts, numbers, ...). -/
inductive ResultVal where
  | fileOutput (img : Img)
  | strUrl (url : String)
  | readable (img : Img)
  | other
deriving Repr, DecidableEq

/-- A raw backend result: a list/tuple of values, or a single value. -/
inductive RawResult where
  | listRes (items : List ResultVal)
  | single (v : ResultVal)
deriving Repr, DecidableEq

/-- Result of `_normalize_result`: an empty list/tuple is returned as-is. -/
inductive NormResult where
  | val (v : ResultVal)
  | emptyList
deriving Repr, DecidableEq

/-- `_normalize_result` (lines 322-325): the first element of a nonempty
  list/tuple, otherwise the result itself. -/
def _normalize_result : RawResult → NormResult
  | .listRes (v :: _) => .val v
  | .listRes [] => .emptyList
  | .single v => .val v

def pyLowerStr (s : String) : String := ⟨pyLower s.data⟩

/-- `_suffix_from_format` (lines 419-422): `".jpg"` when the format is truthy
  and lowercases to jpg/jpeg, else `".png"`. -/
def _suffix_from_format (output_format : Option String) : String :=
  match output_format with
  | some f =>
    if !f.isEmpty && (pyLowerStr f = "jpg" || pyLowerStr f = "jpeg") then ".jpg" else ".png"
  | none => ".png"

/-- `_write_output` (lines 327-339).  `.ok (some img)` models `return True`
  having written `img`; `.ok none` models `return False` (unsupported result
  type); `.error` models an exception escaping `_download_url` for a string
  result — `urllib.request.urlretrieve` raises (deterministically so for a
  string that is not a URL), and nothing in `image_edit_baseline` catches it.
  `downloadOk` and `urlImg` are oracles for the download outcome. -/
def _write_output (downloadOk : String → Bool) (urlImg : String → Img) :
    NormResult → Except String (Option Img)
  | .val (.fileOutput img) => .ok (some img)
  | .val (.strUrl u) =>
    if downloadOk u then .ok (some (urlImg u)) else .error "urlretrieve raised"
  | .val (.readable img) => .ok (some img)
  | .val .other => .ok none
  | .emptyList => .ok none

/-- `_mock_inpaint` (lines 432-437): open the input image and save it to a
  fresh timestamped `.png` path — a pixel-identical copy of the input. -/
def _mock_inpaint (inputImg : Img) (input_stem output_dir ts : String) : String × Img :=
  (timestamped_path output_dir input_stem ".png" ts, inputImg)

/-- One backend attempt: `client.run` either raises a
  `ReplicateError`/`ModelError` or returns a raw result. -/
inductive BackendTry where
  | failure
  | success (r : RawResult)
deriving Repr, DecidableEq

/-- Outcome of the retry loop (lines 92-127). `noneResult` is the
  `max_retries = 0` boundary (the `for` body never runs, `result` stays
  `None`); `exhaustedMock` is the `attempt >= max_retries` branch of the
  handler, which returns the mock copy directly. -/
inductive LoopOutcome where
  | gotResult (r : RawResult)
  | noneResult
  | exhaustedMock
deriving Repr, DecidableEq

/-- The `for attempt in range(1, max_retries + 1)` loop: `attempt` is the 
  1-based counter, `remaining` the attempts left. -/
def attemptLoop (backend : Nat → BackendTry) : Nat → Nat → LoopOutcome
  | _, 0 => .noneResult
  | attempt, r + 1 =>
    match backend attempt with
    | .success res => .gotResult res
    | .failure => if r = 0 then .exhaustedMock else attemptLoop backend (attempt + 1) r

/-- What `image_edit_baseline` hands back to `baseline_node`: the returned
  path, the image stored there, and `last_baseline_used_mock`. -/
structure BaselineResult where
  path : String
  image : Img
  used_mock : Bool
deriving Repr, DecidableEq

/-- The tail of `image_edit_baseline` after the retry loop produced a
  normalized result (lines 129-142): pick a suffix and timestamped output
  path, write the result (mock fallback when `_write_output` returns
  `False`), then size-match the written image. -/
def baselineWrite (downloadOk : String → Bool) (urlImg : String → Img)
    (resample : Img → Size → List Nat) (inputImg : Img)
    (input_stem output_dir : String) (output_format : Option String) (ts : String)
    (match_input_size : Bool) (norm : NormResult) : Except String BaselineResult :=
  match _write_output downloadOk urlImg norm with
  | .error e => .error e
  | .ok none =>
    .ok { path := (_mock_inpaint inputImg input_stem output_dir ts).1,
          image := (_mock_inpaint inputImg input_stem output_dir ts).2,
          used_mock := true }
  | .ok (some img) =>
    .ok { path := timestamped_path output_dir "image_edit_baseline"
            (_suffix_from_format output_format) ts,
          image := if match_input_size then apply_match_size resample img inputImg else img,
          used_mock := false }

/-- `image_edit_baseline` (lines 60-142).  The backend, the download, the
  resampler and the timestamp are oracle inputs; `output_format` is the
  payload's `output_format` field for the chosen model. -/
def image_edit_baseline (backend : Nat → BackendTry) (downloadOk : String → Bool)
    (urlImg : String → Img) (resample : Img → Size → List Nat) (inputImg : Img)
    (input_stem output_dir : String) (output_format : Option String) (ts : String)
    (max_retries : Nat) (match_input_size : Bool) : Except String BaselineResult :=
  match attemptLoop backend 1 max_retries with
  | .exhaustedMock =>
    .ok { path := (_mock_inpaint inputImg input_stem output_dir ts).1,
          image := (_mock_inpaint inputImg input_stem output_dir ts).2,
          used_mock := true }
  | .noneResult =>
    baselineWrite downloadOk urlImg resample inputImg input_stem output_dir
      output_format ts match_input_size (.val .other)
  | .gotResult r =>
    baselineWrite downloadOk urlImg resample inputImg input_stem output_dir
      output_format ts match_input_size (_normalize_result r)

/-- The `if not edited_path` guard of `baseline_node`
  (src/workflow/graph.py, lines 26-27), read on the returned path. -/
def baseline_node_guard (edited_path : String) : Except String String :=
  if edited_path.isEmpty then .error "Baseline edit failed to produce an output image."
  else .ok edited_path

end StreetCF

namespace StreetCF

/-! ### Path non-emptiness and the retry loop -/

theorem isEmpty_eq_false {s : String} (h : s ≠ "") : s.isEmpty = false := by
  cases hb : s.isEmpty
  · rfl
  · exact absurd ((String.isEmpty_iff _).mp hb) h

theorem timestamped_path_ne_empty (root stem suffix ts : String) :
    (timestamped_path root stem suffix ts).isEmpty = false := by
  apply isEmpty_eq_false
  intro h
  have hlen := congrArg String.length h
  have h1 : ("/" : String).length = 1 := by decide
  have h2 : ("" : String).length = 0 := rfl
  simp only [timestamped_path, String.length_append, h1, h2] at hlen
  omega

theorem attemptLoop_all_fail {backend : Nat → BackendTry} (h : ∀ i, backend i = .failure) :
    ∀ (r a : Nat), 1 ≤ r → attemptLoop backend a r = .exhaustedMock := by
  intro r
  induction r with
  | zero => intro a h1; omega
  | succ n ih =>
    intro a _
    unfold attemptLoop
    rw [h a]
    by_cases hn : n = 0
    · rw [if_pos hn]
    · rw [if_neg hn]
      exact ih (a + 1) (by omega)

theorem baselineWrite_path_ne_empty (downloadOk : String → Bool) (urlImg : String → Img)
    (resample : Img → Size → List Nat) (inputImg : Img)
    (input_stem output_dir : String) (output_format : Option String) (ts : String)
    (match_input_size : Bool) (norm : NormResult) :
    ∀ res, baselineWrite downloadOk urlImg resample inputImg input_stem output_dir
        output_format ts match_input_size norm = .ok res →
      res.path.isEmpty = false := by
  intro res hres
  unfold baselineWrite at hres
  split at hres
  · cases hres
  · rw [Except.ok.injEq] at hres
    subst hres
    exact timestamped_path_ne_empty _ _ _ _
  · rw [Except.ok.injEq] at hres
    subst hres
    exact timestamped_path_ne_empty _ _ _ _

/-! ### Claim theorems for `image_edit_baseline` -/

def demoImg : Img := { width := 4, height := 2, pix := [0, 1, 2, 3, 4, 5, 6, 7] }

def demoFailBackend : Nat → BackendTry := fun _ => .failure

def demoBadUrlBackend : Nat → BackendTry := fun _ => .success (.single (.strUrl "foo"))

def demoNoDownload : String → Bool := fun _ => false

def demoUrlImg : String → Img := fun _ => demoImg

def demoResample : Img → Size → List Nat := fun img _ => img.pix

/-- C6 (counterexample): when the backend's result is the malformed string
  payload "foo" — not a URL, so `urllib.request.urlretrieve` raises
  `ValueError: unknown url type` deterministically, uncaught at line 132 —
  `image_edit_baseline` raises instead of returning a mock copy. -/
theorem baseline_malformed_payload_counterexample :
    image_edit_baseline demoBadUrlBackend demoNoDownload demoUrlImg demoResample
      demoImg "input" "out" (some "png") "T" 3 true = .error "urlretrieve raised" := by
  decide

/-- C6 (amended): when every backend attempt raises a retryable error (with
  `max_retries ≥ 1`), or the backend result is of a type `_write_output` does
  not support (it returns `False`), `image_edit_baseline` does not raise: it
  returns a pixel-identical mock copy of the input image at a fresh
  timestamped path and reports `used_mock = true`.  (A string payload whose
  download raises — e.g. a malformed URL — propagates the exception instead;
  see the counterexample.) -/
theorem baseline_mock_fallback_amended
    (backend : Nat → BackendTry) (downloadOk : String → Bool) (urlImg : String → Img)
    (resample : Img → Size → List Nat) (inputImg : Img)
    (input_stem output_dir : String) (output_format : Option String) (ts : String)
    (max_retries : Nat) (match_input_size : Bool) :
    ((∀ i, backend i = .failure) → 1 ≤ max_retries →
      image_edit_baseline backend downloadOk urlImg resample inputImg input_stem
          output_dir output_format ts max_retries match_input_size =
        .ok { path := timestamped_path output_dir input_stem ".png" ts,
              image := inputImg, used_mock := true }) ∧
    (∀ r, backend 1 = .success r →
      _write_output downloadOk urlImg (_normalize_result r) = .ok none →
      1 ≤ max_retries →
      image_edit_baseline backend downloadOk urlImg resample inputImg input_stem
          output_dir output_format ts max_retries match_input_size =
        .ok { path := timestamped_path output_dir input_stem ".png" ts,
              image := inputImg, used_mock := true }) := by
  constructor
  · intro hfail hr
    unfold image_edit_baseline
    rw [attemptLoop_all_fail hfail max_retries 1 hr]
    rfl
  · intro r hb hw hr
    obtain ⟨n, rfl⟩ : ∃ n, max_retries = n + 1 := ⟨max_retries - 1, by omega⟩
    have hloop : attemptLoop backend 1 (n + 1) = .gotResult r := by
      unfold attemptLoop
      rw [hb]
    unfold image_edit_baseline
    rw [hloop]
    show baselineWrite downloadOk urlImg resample inputImg input_stem output_dir
      output_format ts match_input_size (_normalize_result r) = _
    unfold baselineWrite
    rw [hw]
    rfl

/-- C6 witness: three raising attempts produce the mock copy of the input. -/
theorem baseline_mock_fallback_amended_witness :
    image_edit_baseline demoFailBackend demoNoDownload demoUrlImg demoResample
        demoImg "input" "out" (some "png") "T" 3 true =
      .ok { path := timestamped_path "out" "input" ".png" "T",
            image := demoImg, used_mock := true } :=
  (baseline_mock_fallback_amended demoFailBackend demoNoDownload demoUrlImg demoResample
      demoImg "input" "out" (some "png") "T" 3 true).1 (fun _ => rfl) (by decide)

/-- C10: every normal return of `image_edit_baseline` carries a non-empty
  timestamped path — the mock fallback covers both retry exhaustion and an
  unwritable result — so the failure branch of `baseline_node` (raising
  "Baseline edit failed to produce an output image." when the editor returns
  no path) never fires. -/
theorem baseline_node_failure_unreachable
    (backend : Nat → BackendTry) (downloadOk : String → Bool) (urlImg : String → Img)
    (resample : Img → Size → List Nat) (inputImg : Img)
    (input_stem output_dir : String) (output_format : Option String) (ts : String)
    (max_retries : Nat) (match_input_size : Bool) :
    ∀ res, image_edit_baseline backend downloadOk urlImg resample inputImg input_stem
        output_dir output_format ts max_retries match_input_size = .ok res →
      res.path.isEmpty = false ∧ baseline_node_guard res.path = .ok res.path := by
  intro res hres
  have hpath : res.path.isEmpty = false := by
    unfold image_edit_baseline at hres
    split at hres
    · rw [Except.ok.injEq] at hres
      subst hres
      exact timestamped_path_ne_empty _ _ _ _
    · exact baselineWrite_path_ne_empty downloadOk urlImg resample inputImg input_stem
        output_dir output_format ts match_input_size _ res hres
    · exact baselineWrite_path_ne_empty downloadOk urlImg resample inputImg input_stem
        output_dir output_format ts match_input_size _ res hres
  refine ⟨hpath, ?_⟩
  unfold baseline_node_guard
  rw [hpath]
  simp

def mockDemoResult : BaselineResult :=
  { path := timestamped_path "out" "input" ".png" "T", image := demoImg, used_mock := true }

/-- C10 witness: the guard accepts the mock path of a concrete exhausted run. -/
theorem baseline_node_failure_unreachable_witness :
    mockDemoResult.path.isEmpty = false ∧
    baseline_node_guard mockDemoResult.path = .ok mockDemoResult.path :=
  baseline_node_failure_unreachable demoFailBackend demoNoDownload demoUrlImg demoResample
    demoImg "input" "out" (some "png") "T" 3 true mockDemoResult (by decide)

end StreetCF

namespace StreetCF

/-! ### Claim theorems for `_match_size` -/

/-- The cover-fit scale `max(in_w/out_w, in_h/out_h)` of `_match_size`. -/
def msScale (ref edited : Size) : ℚ :=
  max ((ref.w : ℚ) / (edited.w : ℚ)) ((ref.h : ℚ) / (edited.h : ℚ))

def msNewW (ref edited : Size) : ℤ := max 1 (pyRound ((edited.w : ℚ) * msScale ref edited))

def msNewH (ref edited : Size) : ℤ := max 1 (pyRound ((edited.h : ℚ) * msScale ref edited))

def msLeft (ref edited : Size) : ℤ := max 0 ((msNewW ref edited - ref.w) / 2)

def msTop (ref edited : Size) : ℤ := max 0 ((msNewH ref edited - ref.h) / 2)

/-- The geometry `_match_size` produces in its non-trivial branch. -/
def matchSpec (ref edited : Size) : CropSpec :=
  { new_w := msNewW ref edited, new_h := msNewH ref edited,
    left := msLeft ref edited, top := msTop ref edited,
    right := msLeft ref edited + ref.w, bottom := msTop ref edited + ref.h }

theorem match_size_eq_of_ne {ref edited : Size} (hne : ref ≠ edited) :
    _match_size ref edited = some (matchSpec ref edited) := by
  unfold _match_size
  rw [if_neg hne]
  rfl

theorem le_pyRound {n : ℤ} {x : ℚ} (h : (n : ℚ) ≤ x) : n ≤ pyRound x := by
  have hfl : n ≤ ⌊x⌋ := Int.le_floor.mpr h
  unfold pyRound
  split
  · exact hfl
  · split
    · omega
    · split <;> omega

theorem le_mul_msScale_w {ref edited : Size} (hw : 1 ≤ edited.w) :
    ((ref.w : ℤ) : ℚ) ≤ (edited.w : ℚ) * msScale ref edited := by
  have hw0 : (0 : ℚ) < (edited.w : ℚ) := by exact_mod_cast hw
  have h1 : ((ref.w : ℚ) / (edited.w : ℚ)) ≤ msScale ref edited := le_max_left _ _
  have h2 : (edited.w : ℚ) * ((ref.w : ℚ) / (edited.w : ℚ)) = (ref.w : ℚ) := by
    field_simp
  push_cast
  rw [← h2]
  exact mul_le_mul_of_nonneg_left h1 hw0.le

theorem le_mul_msScale_h {ref edited : Size} (hh : 1 ≤ edited.h) :
    ((ref.h : ℤ) : ℚ) ≤ (edited.h : ℚ) * msScale ref edited := by
  have hh0 : (0 : ℚ) < (edited.h : ℚ) := by exact_mod_cast hh
  have h1 : ((ref.h : ℚ) / (edited.h : ℚ)) ≤ msScale ref edited := le_max_right _ _
  have h2 : (edited.h : ℚ) * ((ref.h : ℚ) / (edited.h : ℚ)) = (ref.h : ℚ) := by
    field_simp
  push_cast
  rw [← h2]
  exact mul_le_mul_of_nonneg_left h1 hh0.le

/-- C7: when the edited image's size differs from the reference image's
  `W × H` (all dimensions positive), `_match_size` rescales by the cover-fit
  factor `scale = max(W/edited_w, H/edited_h)` and center-crops: the crop box
  measures exactly `W × H` and lies entirely inside the resized image, so the
  saved output has exactly the reference dimensions with no unfilled
  (letterboxed) borders. -/
theorem match_size_cover_crop (ref edited : Size) (hne : ref ≠ edited)
    (hw : 1 ≤ edited.w) (hh : 1 ≤ edited.h) (hrw : 1 ≤ ref.w) (hrh : 1 ≤ ref.h) :
    _match_size ref edited ≠ none ∧
    ∀ spec, _match_size ref edited = some spec →
      spec.right - spec.left = ref.w ∧
      spec.bottom - spec.top = ref.h ∧
      0 ≤ spec.left ∧ 0 ≤ spec.top ∧
      spec.right ≤ spec.new_w ∧ spec.bottom ≤ spec.new_h ∧
      spec.new_w = max 1 (pyRound ((edited.w : ℚ) * msScale ref edited)) ∧
      spec.new_h = max 1 (pyRound ((edited.h : ℚ) * msScale ref edited)) := by
  have heq := match_size_eq_of_ne hne
  refine ⟨by rw [heq]; exact Option.some_ne_none _, ?_⟩
  intro spec hspec
  rw [heq, Option.some.injEq] at hspec
  subst hspec
  have hnw : (ref.w : ℤ) ≤ msNewW ref edited := by
    have hp := le_pyRound (@le_mul_msScale_w ref edited hw)
    unfold msNewW
    omega
  have hnh : (ref.h : ℤ) ≤ msNewH ref edited := by
    have hp := le_pyRound (@le_mul_msScale_h ref edited hh)
    unfold msNewH
    omega
  refine ⟨by simp [matchSpec], by simp [matchSpec], ?_, ?_, ?_, ?_, rfl, rfl⟩
  · exact le_max_left _ _
  · exact le_max_left _ _
  · show msLeft ref edited + (ref.w : ℤ) ≤ msNewW ref edited
    unfold msLeft
    omega
  · show msTop ref edited + (ref.h : ℤ) ≤ msNewH ref edited
    unfold msTop
    omega

/-- C7 witness: a 200×400 edited image against a 400×200 reference is
  resized to 400×800 and cropped to the box (0, 300, 400, 500) — exactly
  400×200, fully inside the resized image. -/
theorem match_size_cover_crop_witness :
    (⟨400, 800, 0, 300, 400, 500⟩ : CropSpec).right -
        (⟨400, 800, 0, 300, 400, 500⟩ : CropSpec).left = 400 ∧
    (⟨400, 800, 0, 300, 400, 500⟩ : CropSpec).bottom -
        (⟨400, 800, 0, 300, 400, 500⟩ : CropSpec).top = 200 := by
  have hspec : _match_size ⟨400, 200⟩ ⟨200, 400⟩ =
      some ⟨400, 800, 0, 300, 400, 500⟩ := by
    rw [match_size_eq_of_ne (by decide)]
    have h1 : msScale ⟨400, 200⟩ ⟨200, 400⟩ = 2 := by
      norm_num [msScale, max_def]
    have h2 : msNewW ⟨400, 200⟩ ⟨200, 400⟩ = 400 := by
      norm_num [msNewW, h1, pyRound, max_def]
    have h3 : msNewH ⟨400, 200⟩ ⟨200, 400⟩ = 800 := by
      norm_num [msNewH, h1, pyRound, max_def]
    norm_num [matchSpec, h2, h3, msLeft, msTop, max_def]
  have h := (match_size_cover_crop ⟨400, 200⟩ ⟨200, 400⟩ (by decide) (by decide) (by decide)
    (by decide) (by decide)).2 ⟨400, 800, 0, 300, 400, 500⟩ hspec
  exact ⟨h.1, h.2.1⟩

/-- C8: normalizing an edited image whose size already equals the reference
  size is a no-op — `_match_size` takes its early return (no resize and no
  save, so the file's bytes are unchanged), and the no-op happens exactly in
  that case; correspondingly the saved image is returned untouched. -/
theorem match_size_noop_iff_equal (ref edited : Size) :
    (_match_size ref edited = none ↔ ref = edited) ∧
    ∀ (resample : Img → Size → List Nat) (output inputRef : Img),
      output.width = inputRef.width → output.height = inputRef.height →
      apply_match_size resample output inputRef = output := by
  constructor
  · unfold _match_size
    split
    · simpa
    · rename_i h
      simp [h]
  · intro resample output inputRef h1 h2
    unfold apply_match_size
    have hsz : (⟨inputRef.width, inputRef.height⟩ : Size) =
        ⟨output.width, output.height⟩ := by rw [h1, h2]
    rw [hsz]
    have hnone : _match_size ⟨output.width, output.height⟩ ⟨output.width, output.height⟩ =
        none := by
      unfold _match_size
      rw [if_pos rfl]
    rw [hnone]

/-- C8 witness: the no-op at a concrete matching-size image. -/
theorem match_size_noop_iff_equal_witness :
    apply_match_size demoResample demoImg demoImg = demoImg :=
  (match_size_noop_iff_equal ⟨4, 2⟩ ⟨4, 2⟩).2 demoResample demoImg demoImg rfl rfl

end StreetCF

namespace StreetCF

/-! ### openai_client.py: structured-response extraction

`propose_edit` and `critique_generated` (lines 49-86 and 88-125) send chat
requests and then read `completion.choices[0].message.content` through
`data = json.loads(content) if content else {}` followed by `data.get`.
Only that reading step is the repository's own logic; the backend response
enters as a classified value, and nested JSON containers are abstracted to
their Python truthiness. -/

/-- A JSON leaf value as the client reads them. -/
inductive JVal where
  | str (s : String)
  | bool (b : Bool)
  | num (n : Int)
  | null
  | arrEmpty
  | arrNonEmpty
  | objEmpty
  | objNonEmpty
deriving Repr, DecidableEq

/-- A parsed top-level JSON document: an object (field list) or not. -/
inductive JTop where
  | obj (fields : List (String × JVal))
  | nonObj (v : JVal)
deriving Repr, DecidableEq

/-- The backend's message content as `json.loads` sees it: falsy (`None` or
  `""`), non-empty but unparseable (`json.loads` raises `JSONDecodeError`),
  or parsed JSON. -/
inductive BackendContent where
  | empty
  | unparseable (raw : String)
  | parsed (j : JTop)
deriving Repr, DecidableEq

/-- `data = json.loads(content) if content else {}` — the parse outcome. -/
def loadsModel : BackendContent → Except String JTop
  | .empty => .ok (.obj [])
  | .unparseable _ => .error "json.JSONDecodeError"
  | .parsed j => .ok j

/-- Python `dict.get(key, default)` on a parsed JSON object. -/
def dictGet (fields : List (String × JVal)) (key : String) (default : JVal) : JVal :=
  match fields.lookup key with
  | some v => v
  | none => default

/-- Python truthiness `bool(v)` of a JSON value. -/
def pyTruthy : JVal → Bool
  | .str s => !s.isEmpty
  | .bool b => b
  | .num n => n != 0
  | .null => false
  | .arrEmpty => false
  | .arrNonEmpty => true
  | .objEmpty => false
  | .objNonEmpty => true

/-- The values `propose_edit` builds its `PlanResult` from. -/
structure PlanParsed where
  edit_plan : JVal
  target_object : JVal
deriving Repr, DecidableEq

/-- `propose_edit`'s reading of the response (lines 81-86): `{}` when the
  content is falsy; `json.loads` raises on unparseable content; `data.get`
  raises `AttributeError` when the parsed document is not a dict. -/
def propose_edit_extract (content : BackendContent) : Except String PlanParsed :=
  match loadsModel content with
  | .error e => .error e
  | .ok (.obj fields) =>
    .ok { edit_plan := dictGet fields "edit_plan" (.str "No plan generated"),
          target_object := dictGet fields "target_object" (.str "object") }
  | .ok (.nonObj _) => .error "AttributeError"

/-- The values `critique_generated` builds its result from. -/
structure CritiqueParsed where
  is_realistic : Bool
  is_minimal_edit : Bool
  notes : JVal
deriving Repr, DecidableEq

/-- `critique_generated`'s reading of the response (lines 119-125): the two
  booleans go through `bool(...)`. -/
def critique_generated_extract (content : BackendContent) : Except String CritiqueParsed :=
  match loadsModel content with
  | .error e => .error e
  | .ok (.obj fields) =>
    .ok { is_realistic := pyTruthy (dictGet fields "is_realistic" (.bool false)),
          is_minimal_edit := pyTruthy (dictGet fields "is_minimal_edit" (.bool false)),
          notes := dictGet fields "notes" (.str "") }
  | .ok (.nonObj _) => .error "AttributeError"

/-! ### Claim theorems for the Planner/Critic response handling -/

/-- C9 (counterexample): a non-empty unparseable payload makes `propose_edit`
  raise (`json.loads` raises `JSONDecodeError`, which nothing catches), and
  the default edit plan on an empty payload is the non-empty placeholder
  "No plan generated", not an empty plan. -/
theorem planner_defaults_counterexample :
    propose_edit_extract (.unparseable "not json") = .error "json.JSONDecodeError" ∧
    propose_edit_extract .empty =
      .ok { edit_plan := .str "No plan generated", target_object := .str "object" } ∧
    JVal.str "No plan generated" ≠ JVal.str "" := by
  refine ⟨rfl, rfl, by decide⟩

/-- C9 (amended): when the backend response content is falsy (empty/None) or
  parses as a JSON object missing the required fields, the Planner/Critic
  supply safe defaults without raising — the placeholder plan
  "No plan generated" (not an empty plan), "object" as target object, `false`
  for both critique booleans and empty notes.  A non-empty unparseable
  payload — and a payload whose JSON is not an object — raises instead. -/
theorem planner_defaults_amended (fields : List (String × JVal)) (raw : String)
    (h1 : fields.lookup "edit_plan" = none)
    (h2 : fields.lookup "target_object" = none)
    (h3 : fields.lookup "is_realistic" = none)
    (h4 : fields.lookup "is_minimal_edit" = none)
    (h5 : fields.lookup "notes" = none) :
    propose_edit_extract .empty =
      .ok { edit_plan := .str "No plan generated", target_object := .str "object" } ∧
    critique_generated_extract .empty =
      .ok { is_realistic := false, is_minimal_edit := false, notes := .str "" } ∧
    propose_edit_extract (.parsed (.obj fields)) =
      .ok { edit_plan := .str "No plan generated", target_object := .str "object" } ∧
    critique_generated_extract (.parsed (.obj fields)) =
      .ok { is_realistic := false, is_minimal_edit := false, notes := .str "" } ∧
    propose_edit_extract (.unparseable raw) = .error "json.JSONDecodeError" ∧
    critique_generated_extract (.unparseable raw) = .error "json.JSONDecodeError" := by
  refine ⟨rfl, rfl, ?_, ?_, rfl, rfl⟩
  · show Except.ok ({
        edit_plan := dictGet fields "edit_plan" (.str "No plan generated")
        target_object := dictGet fields "target_object" (.str "object") } : PlanParsed) = _
    unfold dictGet
    rw [h1, h2]
  · show Except.ok ({
        is_realistic := pyTruthy (dictGet fields "is_realistic" (.bool false))
        is_minimal_edit := pyTruthy (dictGet fields "is_minimal_edit" (.bool false))
        notes := dictGet fields "notes" (.str "") } : CritiqueParsed) = _
    unfold dictGet
    rw [h3, h4, h5]
    rfl

def demoFields : List (String × JVal) := [("other", JVal.bool true)]

/-- C9 witness: the defaults at a concrete field list missing all keys. -/
theorem planner_defaults_amended_witness :
    propose_edit_extract (.parsed (.obj demoFields)) =
      .ok { edit_plan := .str "No plan generated", target_object := .str "object" } :=
  (planner_defaults_amended demoFields "x" (by decide) (by decide) (by decide) (by decide)
    (by decide)).2.2.1

end StreetCF
